import Mathlib

/-!
Verification development for the Project Omega cognitive-training engine
(`src/App.tsx`).  The definitions below are a shallow embedding of the
engine's pure logic.  Every random draw made by the source through
`Math.random()` is an explicit parameter of the embedding: a natural
number index reduced modulo the choice-list length for `getRandomItem`,
a rational in `[0, 1)` for a raw probability draw, and an injected
permutation for `shuffleArray` of the scheduler's bag.
-/

namespace Omega

/-- The nine puzzle families (`GeneratorType`, App.tsx lines 14-23). -/
inductive Family where
  | feature
  | comparison
  | opposition
  | hierarchy
  | causal
  | spatial
  | deictic
  | conditional
  | analogy
  deriving DecidableEq, Repr

/-- The list of all nine families in the order the bag refill enumerates
them (App.tsx lines 1282-1286). -/
def allTypes : List Family :=
  [.feature, .comparison, .opposition, .hierarchy, .causal, .spatial,
   .deictic, .conditional, .analogy]

/-- `getRandomItem` (App.tsx line 75): `arr[Math.floor(Math.random() * arr.length)]`.
The uniform draw `Math.floor(Math.random() * arr.length)` is modelled by an
arbitrary natural number reduced modulo the length; on the empty list the
source yields `undefined`, modelled by `""`. -/
def getRandomItem (arr : List String) (i : Nat) : String :=
  arr.getD (i % arr.length) ""

/-- Elo-to-tier resolver `getTier` (App.tsx lines 102-106). -/
def getTier (elo : Int) : Nat :=
  if elo < 1200 then 1
  else if elo < 1500 then 2
  else 3

/-- The per-family result vocabulary (`relations` local of each generator):
Feature line 144, Comparison line 164, Opposition line 250, Hierarchy
line 350, Causal lines 440-446 (tier >= 3 switches TRIGGER/BLOCK to
RED/BLUE), Spatial lines 573-578 (tier = 3 switches quadrants to rotation
deltas), Deictic line 700, Conditional line 728, Analogy line 764. -/
def relationsFor : Family → Nat → List String
  | .feature, _ => ["MATCH_COLOR", "MATCH_SHAPE", "EXACT", "NONE"]
  | .comparison, _ => ["GREATER", "LESSER"]
  | .opposition, _ => ["SAME", "OPPOSITE", "DIFFERENT"]
  | .hierarchy, _ => ["HIGHER", "LOWER", "SAME"]
  | .causal, tier => if 3 ≤ tier then ["RED", "BLUE"] else ["TRIGGER", "BLOCK"]
  | .spatial, tier =>
      if tier = 3 then ["NO_CHANGE", "90_RIGHT", "90_LEFT", "180_FLIP"]
      else ["NORTH_EAST", "NORTH_WEST", "SOUTH_EAST", "SOUTH_WEST"]
  | .deictic, _ => ["LEFT", "RIGHT", "FRONT", "BACK"]
  | .conditional, _ => ["RED", "BLUE"]
  | .analogy, _ => ["ANALOGOUS", "NON_ANALOGOUS"]

/-- The anti-repeat filter `relations.filter(r => r !== prevResult)` used by
the non-forcing branch of every generator. -/
def neFilter (relations : List String) (p : String) : List String :=
  relations.filter (fun r => r ≠ p)

/-- The match-forcing result selection shared verbatim by eight of the nine
generators (e.g. App.tsx lines 145-147 for Feature):

  let result = getRandomItem(relations);
  if (forceMatch && prevResult && relations.includes(prevResult)) result = prevResult;
  else if (!forceMatch && prevResult) result = getRandomItem(relations.filter(r => r !== prevResult));

`i` is the initial draw's random index, `j` the filtered draw's. -/
def selectResult (relations : List String) (prevResult : Option String) (forceMatch : Bool)
    (i j : Nat) : String :=
  match prevResult with
  | none => getRandomItem relations i
  | some p =>
    if forceMatch = true ∧ p ∈ relations then p
    else if forceMatch = false then getRandomItem (neFilter relations p) j
    else getRandomItem relations i

/-- The Causal generator's variant of the shared selection (App.tsx lines
443-454): identical except that the filtered redraw is guarded by
`validOptions.length > 0`. -/
def selectResultCausal (relations : List String) (prevResult : Option String) (forceMatch : Bool)
    (i j : Nat) : String :=
  match prevResult with
  | none => getRandomItem relations i
  | some p =>
    if forceMatch = true ∧ p ∈ relations then p
    else if forceMatch = false then
      let validOptions := neFilter relations p
      if 0 < validOptions.length then getRandomItem validOptions j
      else getRandomItem relations i
    else getRandomItem relations i

/-- The ground-truth result returned by each of the nine generators, as a
function of the shared match-forcing rule over that family's tier
vocabulary.  Only the Causal generator uses the guarded variant. -/
def genResult (f : Family) (prevResult : Option String) (forceMatch : Bool) (tier : Nat)
    (i j : Nat) : String :=
  match f with
  | .causal => selectResultCausal (relationsFor .causal tier) prevResult forceMatch i j
  | g => selectResult (relationsFor g tier) prevResult forceMatch i j

/-- The Meta-Modifier's fixed inversion table (App.tsx lines 115-128).
`none` models the absence of a key, on which the source's truthiness test
`if (opposites[result])` fails. -/
def opposites : String → Option String
  | "GREATER" => some "LESSER"
  | "LESSER" => some "GREATER"
  | "SAME" => some "OPPOSITE"
  | "OPPOSITE" => some "SAME"
  | "DIFFERENT" => some "SAME"
  | "HIGHER" => some "LOWER"
  | "LOWER" => some "HIGHER"
  | "TRIGGER" => some "BLOCK"
  | "BLOCK" => some "TRIGGER"
  | "RED" => some "BLUE"
  | "BLUE" => some "RED"
  | "LEFT" => some "RIGHT"
  | "RIGHT" => some "LEFT"
  | "FRONT" => some "BACK"
  | "BACK" => some "FRONT"
  | "NORTH_EAST" => some "SOUTH_WEST"
  | "SOUTH_WEST" => some "NORTH_EAST"
  | "NORTH_WEST" => some "SOUTH_EAST"
  | "SOUTH_EAST" => some "NORTH_WEST"
  | "NO_CHANGE" => some "180_FLIP"
  | "180_FLIP" => some "NO_CHANGE"
  | "90_RIGHT" => some "90_LEFT"
  | "90_LEFT" => some "90_RIGHT"
  | "ANALOGOUS" => some "NON_ANALOGOUS"
  | "NON_ANALOGOUS" => some "ANALOGOUS"
  | "MATCH_COLOR" => some "NONE"
  | "MATCH_SHAPE" => some "NONE"
  | "EXACT" => some "NONE"
  | _ => none

/-- The substitution performed inside the negation branch (App.tsx lines
130-135): the registered opposite when the table has an entry, otherwise
the result is left alone (the `if (opposites[result])` truthiness guard). -/
def invertResult (result : String) : String :=
  match opposites result with
  | some inv => inv
  | none => result

/-- Effect of `applyMetaModifiers` on the ground-truth result (App.tsx lines
109-139): at tier >= 3, with the raw draw `q = Math.random()` below 0.30,
and only when the inversion table has an entry, the result is replaced by
its registered opposite. -/
def applyMetaModifiers (result : String) (tier : Nat) (q : ℚ) : String :=
  if 3 ≤ tier ∧ q < 3 / 10 then invertResult result
  else result

/-- The stored ground-truth result of a turn (nextTurn, App.tsx lines
1331-1358): the generator's result, passed through `applyMetaModifiers`
exactly when the turn is not a Repair-Mode turn (line 1354). -/
def pipelineResult (f : Family) (prevResult : Option String) (forceMatch : Bool) (tier : Nat)
    (i j : Nat) (isRepair : Bool) (q : ℚ) : String :=
  let r := genResult f prevResult forceMatch tier i j
  if isRepair then r else applyMetaModifiers r tier q

/- ### Basic facts about the random-choice model -/

theorem getRandomItem_mem (l : List String) (i : Nat) (h : l ≠ []) :
    getRandomItem l i ∈ l := by
  have hlen : 0 < l.length := List.length_pos.mpr h
  have hlt : i % l.length < l.length := Nat.mod_lt _ hlen
  unfold getRandomItem
  rw [List.getD_eq_getElem l "" hlt]
  exact List.getElem_mem hlt

theorem getRandomItem_surj (l : List String) (t : String) (ht : t ∈ l) :
    ∃ i, getRandomItem l i = t := by
  obtain ⟨⟨k, hk⟩, rfl⟩ := List.mem_iff_get.mp ht
  refine ⟨k, ?_⟩
  unfold getRandomItem
  rw [Nat.mod_eq_of_lt hk, List.getD_eq_getElem l "" hk]
  rfl

theorem relationsFor_ne_nil (f : Family) (tier : Nat) : relationsFor f tier ≠ [] := by
  cases f <;> simp only [relationsFor] <;> first
    | (split <;> simp)
    | simp

theorem relationsFor_nodup (f : Family) (tier : Nat) : (relationsFor f tier).Nodup := by
  cases f <;> simp only [relationsFor] <;> first
    | decide
    | (split <;> decide)

theorem relationsFor_two_le (f : Family) (tier : Nat) : 2 ≤ (relationsFor f tier).length := by
  cases f <;> simp only [relationsFor] <;> first
    | decide
    | (split <;> decide)

theorem filter_ne_nil_of_nodup (l : List String) (p : String) (hn : l.Nodup)
    (hl : 2 ≤ l.length) : l.filter (fun r => r ≠ p) ≠ [] := by
  intro hemp
  have hall : ∀ x ∈ l, x = p := by
    intro x hx
    by_contra hne
    have hxf : x ∈ l.filter (fun r => r ≠ p) := by
      refine List.mem_filter.mpr ⟨hx, ?_⟩
      simpa using hne
    rw [hemp] at hxf
    simp at hxf
  match l, hn, hl, hall with
  | a :: b :: rest, hn, _, hall =>
    have ha : a = p := hall a (by simp)
    have hb : b = p := hall b (by simp)
    have : a ∉ b :: rest := (List.nodup_cons.mp hn).1
    exact this (by simp [ha, hb])

theorem neFilter_ne_nil (l : List String) (p : String) (hn : l.Nodup)
    (hl : 2 ≤ l.length) : neFilter l p ≠ [] :=
  filter_ne_nil_of_nodup l p hn hl

theorem neFilter_sub (l : List String) (p x : String) (hx : x ∈ neFilter l p) :
    x ∈ l ∧ x ≠ p := by
  have h := List.mem_filter.mp hx
  refine ⟨h.1, ?_⟩
  simpa using h.2

theorem neFilter_of_not_mem (l : List String) (p : String) (hp : p ∉ l) :
    neFilter l p = l := by
  refine List.filter_eq_self.mpr ?_
  intro a ha
  simp only [decide_eq_true_eq]
  intro hap
  exact hp (hap ▸ ha)

theorem mem_neFilter (l : List String) (p t : String) (ht : t ∈ l) (htp : t ≠ p) :
    t ∈ neFilter l p := by
  refine List.mem_filter.mpr ⟨ht, ?_⟩
  simpa using htp

/- ### Behavior of the shared result-selection rule -/

theorem selectResult_none (relations : List String) (force : Bool) (i j : Nat) :
    selectResult relations none force i j = getRandomItem relations i := rfl

theorem selectResult_forced (relations : List String) (p : String) (i j : Nat)
    (hp : p ∈ relations) :
    selectResult relations (some p) true i j = p := by
  simp [selectResult, hp]

theorem selectResult_forced_illegal (relations : List String) (p : String) (i j : Nat)
    (hp : p ∉ relations) :
    selectResult relations (some p) true i j = getRandomItem relations i := by
  simp [selectResult, hp]

theorem selectResult_anti (relations : List String) (p : String) (i j : Nat) :
    selectResult relations (some p) false i j = getRandomItem (neFilter relations p) j := by
  simp [selectResult]

theorem selectResultCausal_eq (relations : List String) (prev : Option String)
    (force : Bool) (i j : Nat) (hn : relations.Nodup) (h2 : 2 ≤ relations.length) :
    selectResultCausal relations prev force i j = selectResult relations prev force i j := by
  cases prev with
  | none => rfl
  | some p =>
    have hpos : 0 < (neFilter relations p).length := by
      by_cases hp : p ∈ relations
      · exact List.length_pos.mpr (neFilter_ne_nil relations p hn h2)
      · rw [neFilter_of_not_mem relations p hp]
        omega
    cases force with
    | true => rfl
    | false => simp [selectResult, selectResultCausal, hpos]

theorem genResult_eq_select (f : Family) (prev : Option String) (force : Bool)
    (tier : Nat) (i j : Nat) :
    genResult f prev force tier i j = selectResult (relationsFor f tier) prev force i j := by
  cases f <;> try rfl
  exact selectResultCausal_eq _ prev force i j (relationsFor_nodup .causal tier)
    (relationsFor_two_le .causal tier)

theorem genResult_mem (f : Family) (prev : Option String) (force : Bool)
    (tier : Nat) (i j : Nat) :
    genResult f prev force tier i j ∈ relationsFor f tier := by
  rw [genResult_eq_select]
  have hn := relationsFor_nodup f tier
  have h2 := relationsFor_two_le f tier
  have hnil := relationsFor_ne_nil f tier
  cases prev with
  | none => exact getRandomItem_mem _ i hnil
  | some p =>
    by_cases hp : p ∈ relationsFor f tier
    · cases force with
      | true =>
        rw [selectResult_forced _ _ _ _ hp]
        exact hp
      | false =>
        rw [selectResult_anti]
        have hne := neFilter_ne_nil (relationsFor f tier) p hn h2
        exact (neFilter_sub _ _ _ (getRandomItem_mem _ j hne)).1
    · cases force with
      | true =>
        rw [selectResult_forced_illegal _ _ _ _ hp]
        exact getRandomItem_mem _ i hnil
      | false =>
        rw [selectResult_anti, neFilter_of_not_mem _ _ hp]
        exact getRandomItem_mem _ j hnil

/-- C3: the shared match-forcing rule, for every family and tier.  With
`prevResult = p` legal for the tier: forcing returns exactly `p`; not
forcing returns a member of the vocabulary different from `p`, and every
such member is reachable by some draw.  With `p` illegal or `prevResult`
null, the result is a member of the full vocabulary and every member is
reachable by some draw (the shallow rendering of a uniform draw from the
full vocabulary). -/
theorem matchForcingRule (f : Family) (tier : Nat) (p : String) (force : Bool) (i j : Nat) :
    (p ∈ relationsFor f tier →
       genResult f (some p) true tier i j = p ∧
       genResult f (some p) false tier i j ∈ relationsFor f tier ∧
       genResult f (some p) false tier i j ≠ p ∧
       (∀ t ∈ relationsFor f tier, t ≠ p → ∃ j2, genResult f (some p) false tier i j2 = t)) ∧
    (p ∉ relationsFor f tier →
       genResult f (some p) force tier i j ∈ relationsFor f tier ∧
       (∀ t ∈ relationsFor f tier, ∃ i2 j2, genResult f (some p) force tier i2 j2 = t)) ∧
    (genResult f none force tier i j ∈ relationsFor f tier ∧
     (∀ t ∈ relationsFor f tier, ∃ i2, genResult f none force tier i2 j = t)) := by
  have hn := relationsFor_nodup f tier
  have h2 := relationsFor_two_le f tier
  refine ⟨?_, ?_, ?_⟩
  · intro hp
    refine ⟨?_, genResult_mem f _ false tier i j, ?_, ?_⟩
    · rw [genResult_eq_select]
      exact selectResult_forced _ _ _ _ hp
    · rw [genResult_eq_select, selectResult_anti]
      have hne := neFilter_ne_nil (relationsFor f tier) p hn h2
      exact (neFilter_sub _ _ _ (getRandomItem_mem _ j hne)).2
    · intro t ht htp
      obtain ⟨j2, hj2⟩ := getRandomItem_surj _ t (mem_neFilter _ _ _ ht htp)
      refine ⟨j2, ?_⟩
      rw [genResult_eq_select, selectResult_anti]
      exact hj2
  · intro hp
    refine ⟨genResult_mem f _ force tier i j, ?_⟩
    intro t ht
    obtain ⟨k, hk⟩ := getRandomItem_surj _ t ht
    cases force with
    | true =>
      refine ⟨k, 0, ?_⟩
      rw [genResult_eq_select, selectResult_forced_illegal _ _ _ _ hp]
      exact hk
    | false =>
      refine ⟨0, k, ?_⟩
      rw [genResult_eq_select, selectResult_anti, neFilter_of_not_mem _ _ hp]
      exact hk
  · refine ⟨genResult_mem f none force tier i j, ?_⟩
    intro t ht
    obtain ⟨k, hk⟩ := getRandomItem_surj _ t ht
    refine ⟨k, ?_⟩
    rw [genResult_eq_select, selectResult_none]
    exact hk

/-- Witness for the C3 theorem at a concrete input: Hierarchy, tier 1,
previous result HIGHER. -/
theorem matchForcingRuleWitness :
    ("HIGHER" ∈ relationsFor .hierarchy 1 → genResult .hierarchy (some "HIGHER") true 1 0 0 = "HIGHER" ∧
       genResult .hierarchy (some "HIGHER") false 1 0 0 ∈ relationsFor .hierarchy 1 ∧
       genResult .hierarchy (some "HIGHER") false 1 0 0 ≠ "HIGHER" ∧
       (∀ t ∈ relationsFor .hierarchy 1, t ≠ "HIGHER" →
          ∃ j2, genResult .hierarchy (some "HIGHER") false 1 0 j2 = t)) ∧
    ("HIGHER" ∉ relationsFor .hierarchy 1 →
       genResult .hierarchy (some "HIGHER") true 1 0 0 ∈ relationsFor .hierarchy 1 ∧
       (∀ t ∈ relationsFor .hierarchy 1, ∃ i2 j2, genResult .hierarchy (some "HIGHER") true 1 i2 j2 = t)) ∧
    (genResult .hierarchy none true 1 0 0 ∈ relationsFor .hierarchy 1 ∧
     (∀ t ∈ relationsFor .hierarchy 1, ∃ i2, genResult .hierarchy none true 1 i2 0 = t)) :=
  matchForcingRule .hierarchy 1 "HIGHER" true 0 0

/- ### Closure of the inversion table over the family vocabularies -/

theorem opposites_closed (f : Family) (tier : Nat) (r : String)
    (hr : r ∈ relationsFor f tier) :
    invertResult r ∈ relationsFor f tier ∨ (f = .hierarchy ∧ r = "SAME") := by
  cases f with
  | causal =>
    by_cases h3 : 3 ≤ tier
    · simp only [relationsFor, if_pos h3] at hr ⊢
      fin_cases hr <;> decide
    · simp only [relationsFor, if_neg h3] at hr ⊢
      fin_cases hr <;> decide
  | spatial =>
    by_cases h3 : tier = 3
    · simp only [relationsFor, if_pos h3] at hr ⊢
      fin_cases hr <;> decide
    · simp only [relationsFor, if_neg h3] at hr ⊢
      fin_cases hr <;> decide
  | feature =>
    simp only [relationsFor] at hr ⊢
    fin_cases hr <;> decide
  | comparison =>
    simp only [relationsFor] at hr ⊢
    fin_cases hr <;> decide
  | opposition =>
    simp only [relationsFor] at hr ⊢
    fin_cases hr <;> decide
  | hierarchy =>
    simp only [relationsFor] at hr ⊢
    fin_cases hr <;> decide
  | deictic =>
    simp only [relationsFor] at hr ⊢
    fin_cases hr <;> decide
  | conditional =>
    simp only [relationsFor] at hr ⊢
    fin_cases hr <;> decide
  | analogy =>
    simp only [relationsFor] at hr ⊢
    fin_cases hr <;> decide

/-- C2 (amended): the generator-level result is always in the family's tier
vocabulary, and the stored post-Meta-Modifier result is too, with the single
exception of Hierarchy at tier 3: a negated SAME is stored as OPPOSITE,
which is outside the Hierarchy vocabulary. -/
theorem vocabularyClosure (f : Family) (tier : Nat) (prev : Option String) (force : Bool)
    (i j : Nat) (q : ℚ) (h1 : 1 ≤ tier) (h3 : tier ≤ 3) :
    genResult f prev force tier i j ∈ relationsFor f tier ∧
    (pipelineResult f prev force tier i j false q ∈ relationsFor f tier ∨
       (f = .hierarchy ∧ tier = 3 ∧ genResult f prev force tier i j = "SAME" ∧
        pipelineResult f prev force tier i j false q = "OPPOSITE")) := by
  have hmem : genResult f prev force tier i j ∈ relationsFor f tier :=
    genResult_mem f prev force tier i j
  refine ⟨hmem, ?_⟩
  have hpipe : pipelineResult f prev force tier i j false q =
      applyMetaModifiers (genResult f prev force tier i j) tier q := rfl
  rw [hpipe]
  unfold applyMetaModifiers
  split
  · rcases opposites_closed f tier (genResult f prev force tier i j) hmem with hin | ⟨hf, hs⟩
    · left
      exact hin
    · right
      refine ⟨hf, by omega, hs, ?_⟩
      rw [hs]
      rfl
  · left
    exact hmem

/-- Witness for the C2 theorem at a concrete input: Causal, tier 3, forcing
a previous RED, with a negation draw of 1 (no negation). -/
theorem vocabularyClosureWitness :
    1 ≤ 3 ∧ 3 ≤ 3 ∧
    (genResult .causal (some "RED") true 3 0 0 ∈ relationsFor .causal 3 ∧
     (pipelineResult .causal (some "RED") true 3 0 0 false 1 ∈ relationsFor .causal 3 ∨
        (Family.causal = .hierarchy ∧ 3 = 3 ∧ genResult .causal (some "RED") true 3 0 0 = "SAME" ∧
         pipelineResult .causal (some "RED") true 3 0 0 false 1 = "OPPOSITE"))) :=
  ⟨by decide, by decide,
    vocabularyClosure .causal 3 (some "RED") true 0 0 1 (by decide) (by decide)⟩

/-- C2 counterexample: a Hierarchy turn at tier 3 whose generated result is
SAME and whose negation draw fires (q = 0 < 0.30) stores OPPOSITE, which is
not in the Hierarchy vocabulary.  The spec's claimed vocabulary closure
therefore fails on the composed pipeline. -/
theorem hierarchyNegationEscape :
    pipelineResult .hierarchy none false 3 2 0 false 0 = "OPPOSITE" ∧
    "OPPOSITE" ∉ relationsFor .hierarchy 3 := by
  have h1 : pipelineResult .hierarchy none false 3 2 0 false 0 =
      applyMetaModifiers (genResult .hierarchy none false 3 2 0) 3 0 := rfl
  have h2 : genResult .hierarchy none false 3 2 0 = "SAME" := by decide
  have h3 : applyMetaModifiers "SAME" 3 0 = invertResult "SAME" := by
    unfold applyMetaModifiers
    rw [if_pos]
    exact ⟨le_refl 3, by norm_num⟩
  constructor
  · rw [h1, h2, h3]
    rfl
  · decide

/-- C10: the Meta-Modifier runs after the match-forcing rule inside
`nextTurn`, so at tier 3 the stored result breaks the generator's
match/anti-repeat guarantees: with forceMatch = false and previous result
RED (legal for Causal at tier 3), the negation draw below stores RED again,
and with forceMatch = true it stores BLUE instead of RED. -/
theorem metaModifierBreaksMatching :
    ("RED" : String) ∈ relationsFor .causal 3 ∧
    genResult .causal (some "RED") false 3 0 0 ≠ "RED" ∧
    pipelineResult .causal (some "RED") false 3 0 0 false 0 = "RED" ∧
    genResult .causal (some "RED") true 3 0 0 = "RED" ∧
    pipelineResult .causal (some "RED") true 3 0 0 false 0 = "BLUE" := by
  have hmeta : ∀ r : String, applyMetaModifiers r 3 0 = invertResult r := by
    intro r
    unfold applyMetaModifiers
    rw [if_pos]
    exact ⟨le_refl 3, by norm_num⟩
  refine ⟨by decide, by decide, ?_, by decide, ?_⟩
  · have h1 : pipelineResult .causal (some "RED") false 3 0 0 false 0 =
        applyMetaModifiers (genResult .causal (some "RED") false 3 0 0) 3 0 := rfl
    have h2 : genResult .causal (some "RED") false 3 0 0 = "BLUE" := by decide
    rw [h1, h2, hmeta]
    rfl
  · have h1 : pipelineResult .causal (some "RED") true 3 0 0 false 0 =
        applyMetaModifiers (genResult .causal (some "RED") true 3 0 0) 3 0 := rfl
    have h2 : genResult .causal (some "RED") true 3 0 0 = "RED" := by decide
    rw [h1, h2, hmeta]
    rfl

/- ### Causal operational semantics and fallbacks (C1) -/

/-- Node colors of the Causal generator (App.tsx lines 460-464). -/
inductive Color where
  | red
  | blue
  deriving DecidableEq, Repr, Fintype

/-- String form of a color, as stored in the Causal tier-3 result. -/
def colorStr : Color → String
  | .red => "RED"
  | .blue => "BLUE"

/-- The color flip of the viral gate (App.tsx line 488). -/
def flipColor : Color → Color
  | .red => .blue
  | .blue => .red

/-- `applyVirus` (App.tsx lines 486-490).  An operator is used only through
membership in `matchOps`, so it is modelled by that Boolean: an
INFECT_MATCH operator succeeds when source and destination colors are
equal, an INFECT_DIFF operator when they differ; on success the
destination's color flips, otherwise it stays. -/
def applyVirus (opIsMatch : Bool) (s d : Color) : Color :=
  if (if opIsMatch then s = d else s ≠ d) then flipColor d else d

/-- The two-link viral simulation of the Causal tier-3 search (App.tsx lines
494-504): node 2's color is updated from node 1, then node 3's from the
updated node 2; the outcome is node 3's final color. -/
def viralSim (op1Match op2Match : Bool) (c1 c2 c3 : Color) : Color :=
  applyVirus op2Match (applyVirus op1Match c1 c2) c3

/-- The Causal tier-3 fallback `op1 = c1; op2 = c1` (App.tsx line 505): both
operators are the first generated code, which is an INFECT_MATCH code. -/
def causalFallback3 (c1 c2 c3 : Color) : Color :=
  viralSim true true c1 c2 c3

/-- The gate operators of the Causal tier-2 generator (App.tsx lines
510-514): `c1 = BLOCK_RED`, `c2 = BLOCK_BLUE`, `c3 = PASS`. -/
inductive GateOp where
  | blockRed
  | blockBlue
  | pass
  deriving DecidableEq, Repr

/-- `checkPass` (App.tsx lines 520-525). -/
def checkPass : GateOp → Color → Bool
  | .pass, _ => true
  | .blockRed, .red => false
  | .blockBlue, .blue => false
  | _, _ => true

/-- The two-gate simulation of the Causal tier-2 search (App.tsx lines
529-543): if gate 1 blocks node 1's color the signal dies and gate 2 is
irrelevant; the outcome is TRIGGER iff both gates pass. -/
def gateSim (t1 t2 : GateOp) (c1 c2 : Color) : String :=
  let pass1 := checkPass t1 c1
  let pass2 := if pass1 then checkPass t2 c2 else false
  if pass2 then "TRIGGER" else "BLOCK"

/-- The Causal tier-2 fallback `op1 = c3; op2 = c3` (App.tsx line 544): both
operators are the PASS code, regardless of the declared result. -/
def causalFallback2 (c1 c2 : Color) : String :=
  gateSim .pass .pass c1 c2

/- ### Spatial operational semantics and fallbacks (C1) -/

/-- The four relative moves of the Spatial tier-2/3 generator (App.tsx lines
607-614): FORWARD, TURN_RIGHT, TURN_LEFT, U_TURN. -/
inductive Move where
  | fwd
  | tr
  | tl
  | uturn
  deriving DecidableEq, Repr

/-- Turtle state: position and heading with 0 = North, 1 = East, 2 = South,
3 = West (App.tsx lines 626-627). -/
structure Turtle where
  x : Int
  y : Int
  heading : Nat
  deriving DecidableEq, Repr

/-- One step of the turtle simulation (App.tsx lines 629-639). -/
def moveStep (t : Turtle) (m : Move) : Turtle :=
  match m with
  | .tr => ⟨t.x, t.y, (t.heading + 1) % 4⟩
  | .tl => ⟨t.x, t.y, (t.heading + 3) % 4⟩
  | .uturn => ⟨t.x, t.y, (t.heading + 2) % 4⟩
  | .fwd =>
    if t.heading = 0 then ⟨t.x, t.y + 1, t.heading⟩
    else if t.heading = 1 then ⟨t.x + 1, t.y, t.heading⟩
    else if t.heading = 2 then ⟨t.x, t.y - 1, t.heading⟩
    else ⟨t.x - 1, t.y, t.heading⟩

/-- Running a move sequence from the origin facing North. -/
def runMoves (ms : List Move) : Turtle :=
  ms.foldl moveStep ⟨0, 0, 0⟩

/-- The tier-2 quadrant outcome of a final turtle state (App.tsx lines
643-648); an axis position yields the empty outcome. -/
def quadOutcome (t : Turtle) : String :=
  if 0 < t.x ∧ 0 < t.y then "NORTH_EAST"
  else if t.x < 0 ∧ 0 < t.y then "NORTH_WEST"
  else if 0 < t.x ∧ t.y < 0 then "SOUTH_EAST"
  else if t.x < 0 ∧ t.y < 0 then "SOUTH_WEST"
  else ""

/-- The tier-3 heading-delta outcome of a final turtle state (App.tsx lines
650-655). -/
def headingOutcome (t : Turtle) : String :=
  if t.heading = 0 then "NO_CHANGE"
  else if t.heading = 1 then "90_RIGHT"
  else if t.heading = 2 then "180_FLIP"
  else if t.heading = 3 then "90_LEFT"
  else ""

/-- The Spatial tier-2 fallback (App.tsx lines 663-672): the first
conditional chain picks a candidate, then the two correction lines
overwrite the SOUTH_EAST and SOUTH_WEST cases. -/
def spatialFallback2 (result : String) : List Move :=
  let seq :=
    if result = "NORTH_EAST" then [Move.fwd, Move.tr, Move.fwd]
    else if result = "NORTH_WEST" then [Move.fwd, Move.tl, Move.fwd]
    else if result = "SOUTH_EAST" then [Move.tr, Move.fwd, Move.fwd]
    else [Move.tl, Move.fwd, Move.fwd]
  let seq2 := if result = "SOUTH_EAST" then [Move.uturn, Move.fwd, Move.tl, Move.fwd] else seq
  if result = "SOUTH_WEST" then [Move.uturn, Move.fwd, Move.tr, Move.fwd] else seq2

/-- The Spatial tier-3 fallback (App.tsx lines 673-679). -/
def spatialFallback3 (result : String) : List Move :=
  if result = "NO_CHANGE" then [Move.tr, Move.tl, Move.fwd]
  else if result = "90_RIGHT" then [Move.fwd, Move.tr, Move.fwd]
  else if result = "90_LEFT" then [Move.fwd, Move.tl, Move.fwd]
  else [Move.tr, Move.tr, Move.fwd]

/-- C1 (amended): the Spatial fallbacks at tiers 2 and 3 reproduce every
declared result of the tier vocabulary under the turtle semantics, but the
Causal fallbacks ignore the declared result: the tier-2 fallback simulates
to TRIGGER for every node coloring (so it fails a declared BLOCK), and the
tier-3 fallback is the fixed double-INFECT_MATCH simulation of the node
colors, a legal color that is independent of the declared target. -/
theorem fallbackBehavior :
    (quadOutcome (runMoves (spatialFallback2 "NORTH_EAST")) = "NORTH_EAST" ∧
     quadOutcome (runMoves (spatialFallback2 "NORTH_WEST")) = "NORTH_WEST" ∧
     quadOutcome (runMoves (spatialFallback2 "SOUTH_EAST")) = "SOUTH_EAST" ∧
     quadOutcome (runMoves (spatialFallback2 "SOUTH_WEST")) = "SOUTH_WEST") ∧
    (headingOutcome (runMoves (spatialFallback3 "NO_CHANGE")) = "NO_CHANGE" ∧
     headingOutcome (runMoves (spatialFallback3 "90_RIGHT")) = "90_RIGHT" ∧
     headingOutcome (runMoves (spatialFallback3 "90_LEFT")) = "90_LEFT" ∧
     headingOutcome (runMoves (spatialFallback3 "180_FLIP")) = "180_FLIP") ∧
    (∀ c1 c2 : Color, causalFallback2 c1 c2 = "TRIGGER") ∧
    (∀ c1 c2 c3 : Color, colorStr (causalFallback3 c1 c2 c3) ∈ relationsFor .causal 3) := by
  decide

/-- C1 counterexample: after search exhaustion the Causal fallbacks do not
reproduce the declared result.  Tier 2 with declared result BLOCK: the
fallback PASS/PASS sequence simulates to TRIGGER.  Tier 3 with declared
result BLUE and all nodes RED: the fallback INFECT_MATCH/INFECT_MATCH
sequence simulates to RED. -/
theorem fallbackCausalCounterexample :
    causalFallback2 .red .red = "TRIGGER" ∧ "TRIGGER" ≠ "BLOCK" ∧
    colorStr (causalFallback3 .red .red .red) = "RED" ∧ "RED" ≠ "BLUE" := by
  decide

/- ### The N-back judge (C4) -/

/-- Standard (non-repair) answer scoring of `handleAnswer` (App.tsx lines
1434-1440), as a function of the rolling history of results (current item
already appended), the back distance `n`, the user's answer and the
timeout flag.  A turn with `history.length <= n` is not judged (the source
immediately starts the next turn); otherwise the declared match and the
recorded correctness are returned. -/
def judgeNormal (hist : List String) (n : Nat) (userMatch timedOut : Bool) :
    Option (Bool × Bool) :=
  if hist.length ≤ n then none
  else
    let current := hist.getD (hist.length - 1) ""
    let target := hist.getD (hist.length - 1 - n) ""
    let isMatch := current == target
    some (isMatch, if timedOut then false else userMatch == isMatch)

/-- Repair-mode answer scoring (App.tsx lines 1410-1412): the displayed
claim is true iff the current result equals the repair target, and a timed
out turn is always incorrect. -/
def judgeRepair (currentResult repairTarget : String) (userMatch timedOut : Bool) :
    Bool × Bool :=
  (currentResult == repairTarget,
   if timedOut then false else userMatch == (currentResult == repairTarget))

/-- C4: for every judged turn (history longer than the back distance), the
declared match compares the last item against the item `n` back, the
recorded correctness is the agreement of the user's answer with the
declared match, and a timed-out turn is scored incorrect in both normal
and repair mode. -/
theorem nbackJudgeCorrectness (hist : List String) (n : Nat) (u t : Bool)
    (h : n < hist.length) :
    ∃ m c, judgeNormal hist n u t = some (m, c) ∧
      (m = true ↔ hist.getD (hist.length - 1) "" = hist.getD (hist.length - 1 - n) "") ∧
      (c = true ↔ (t = false ∧ u = m)) ∧
      (t = true → c = false) ∧
      (∀ cur tgt u2, (judgeRepair cur tgt u2 true).2 = false) := by
  have hnle : ¬ hist.length ≤ n := Nat.not_le.mpr h
  refine ⟨hist.getD (hist.length - 1) "" == hist.getD (hist.length - 1 - n) "",
    if t then false else u == (hist.getD (hist.length - 1) "" == hist.getD (hist.length - 1 - n) ""),
    ?_, ?_, ?_, ?_, ?_⟩
  · simp only [judgeNormal, if_neg hnle]
  · exact beq_iff_eq
  · cases t with
    | true => simp
    | false =>
      simp only [Bool.false_eq_true, if_false]
      constructor
      · intro hb
        exact ⟨by trivial, beq_iff_eq.mp hb⟩
      · intro hb
        exact beq_iff_eq.mpr hb.2
  · intro ht
    rw [ht]
    simp
  · intro cur tgt u2
    simp [judgeRepair]

/-- Witness for the C4 theorem: the spec's own example scenario, history
[A, B, A] with back distance 2. -/
theorem nbackJudgeCorrectnessWitness :
    ∃ m c, judgeNormal ["A", "B", "A"] 2 true false = some (m, c) ∧
      (m = true ↔ (["A", "B", "A"] : List String).getD 2 "" = (["A", "B", "A"] : List String).getD 0 "") ∧
      (c = true ↔ (false = false ∧ true = m)) ∧
      (false = true → c = false) ∧
      (∀ cur tgt u2, (judgeRepair cur tgt u2 true).2 = false) :=
  nbackJudgeCorrectness ["A", "B", "A"] 2 true false (by decide)

/- ### The rating update (C7) -/

/-- The JavaScript `Math.round`, which is `floor(x + 1/2)`. -/
def jsRound (q : ℚ) : Int := ⌊q + 1 / 2⌋

/-- The rating delta of `updateElo` (App.tsx lines 1259-1260):
`Math.round(K * ((isCorrect ? 1 : 0) - 0.5))` with `K = 10`. -/
def eloDiff (correct : Bool) : Int :=
  jsRound (10 * ((if correct then (1 : ℚ) else 0) - 1 / 2))

/-- `updateElo` (App.tsx lines 1257-1263) acting on the pair of the active
rating and the persisted ("real") rating: a no-op in Repair Mode; otherwise
both ratings receive the delta and are clamped at 0, except that the
persisted rating is not written while practice mode is active. -/
def updateElo (isRepair isPractice correct : Bool) (active real : Int) : Int × Int :=
  if isRepair then (active, real)
  else (max 0 (active + eloDiff correct),
        if isPractice then real else max 0 (real + eloDiff correct))

theorem eloDiff_true : eloDiff true = 5 := by
  unfold eloDiff jsRound
  norm_num

theorem eloDiff_false : eloDiff false = -5 := by
  unfold eloDiff jsRound
  norm_num

/-- C7: outside Repair Mode each update adds exactly +5 on a correct answer
and -5 on an incorrect one and clamps at 0; the active and persisted
ratings receive identical updates except in practice mode, where the
persisted rating is never written; and after any sequence of non-repair
updates from a nonnegative start the rating stays nonnegative. -/
theorem ratingUpdateBehavior (correct practice : Bool) (a r : Int) (seq : List Bool)
    (start : Int) (h0 : 0 ≤ start) :
    eloDiff true = 5 ∧ eloDiff false = -5 ∧
    updateElo false practice correct a r =
      (max 0 (a + (if correct then 5 else -5)),
       if practice then r else max 0 (r + (if correct then 5 else -5))) ∧
    (practice = true → (updateElo false practice correct a r).2 = r) ∧
    0 ≤ seq.foldl (fun elo c => (updateElo false false c elo elo).1) start := by
  have hd : ∀ c : Bool, eloDiff c = if c then 5 else -5 := by
    intro c
    cases c with
    | true => simpa using eloDiff_true
    | false => simpa using eloDiff_false
  refine ⟨eloDiff_true, eloDiff_false, ?_, ?_, ?_⟩
  · simp only [updateElo, if_neg Bool.false_ne_true, hd]
  · intro hp
    simp [updateElo, hp]
  · clear hd
    revert h0
    induction seq generalizing start with
    | nil =>
      intro h0
      simpa using h0
    | cons c rest ih =>
      intro h0
      simp only [List.foldl_cons]
      apply ih
      show 0 ≤ max 0 (start + eloDiff c)
      exact le_max_left 0 _

/-- Witness for the C7 theorem: a correct non-practice update from ratings
1000 and a three-update sequence from 1000. -/
theorem ratingUpdateBehaviorWitness :
    eloDiff true = 5 ∧ eloDiff false = -5 ∧
    updateElo false false true 1000 1000 =
      (max 0 (1000 + (if true then 5 else -5)),
       if false then 1000 else max 0 (1000 + (if true then 5 else -5))) ∧
    (false = true → (updateElo false false true 1000 1000).2 = 1000) ∧
    0 ≤ [true, false, false].foldl (fun elo c => (updateElo false false c elo elo).1) 1000 :=
  ratingUpdateBehavior true false 1000 1000 [true, false, false] 1000 (by norm_num)

/- ### The repair state machine (C5) -/

/-- The Repair-Mode bookkeeping state: `isRepairMode`, `consecutiveFailures`,
`repairSuccesses` and `repairTargetType` (App.tsx lines 1234-1238). -/
structure RepairState where
  active : Bool
  failures : Nat
  successes : Nat
  locked : Option Family
  deriving DecidableEq, Repr

/-- The initial repair bookkeeping: inactive, zero counters, no lock. -/
def initRepair : RepairState := ⟨false, 0, 0, none⟩

/-- Effect of one judged answer on the repair bookkeeping, from
`handleAnswer` (App.tsx lines 1410-1425 for repair mode, 1442-1451 for
normal mode); `fam` is the current turn's family, `correct` the recorded
correctness.  In repair mode a correct answer grows the success streak and
a streak of 3 exits repair and clears the failure counter; an incorrect
answer resets the streak.  In normal mode an incorrect answer grows the
failure counter and a count of 3 activates repair, locking the current
family and zeroing the streak; a correct answer resets the counter. -/
def answerStep (s : RepairState) (fam : Family) (correct : Bool) : RepairState :=
  if s.active then
    if correct then
      if 3 ≤ s.successes + 1 then ⟨false, 0, 0, none⟩
      else ⟨true, s.failures, s.successes + 1, s.locked⟩
    else ⟨true, s.failures, 0, s.locked⟩
  else
    if correct then ⟨false, 0, s.successes, s.locked⟩
    else
      if 3 ≤ s.failures + 1 then ⟨true, s.failures + 1, 0, some fam⟩
      else ⟨false, s.failures + 1, s.successes, s.locked⟩

/-- One answer of some family and correctness relates two states. -/
def answerRel (a b : RepairState) : Prop := ∃ fam c, answerStep a fam c = b

/-- States reachable from the initial bookkeeping by judged answers. -/
def ReachableRepair (s : RepairState) : Prop :=
  Relation.ReflTransGen answerRel initRepair s

theorem answerStep_invariant (s : RepairState) (fam : Family) (c : Bool)
    (h1 : s.active = false → s.failures ≤ 2) (h2 : s.active = true → s.successes ≤ 2) :
    ((answerStep s fam c).active = false → (answerStep s fam c).failures ≤ 2) ∧
    ((answerStep s fam c).active = true → (answerStep s fam c).successes ≤ 2) := by
  rcases s with ⟨act, fl, su, lo⟩
  cases act with
  | false =>
    have hfl : fl ≤ 2 := h1 rfl
    cases c with
    | true => simp [answerStep]
    | false =>
      by_cases h3 : 3 ≤ fl + 1
      · simp [answerStep, h3]
      · simp only [answerStep]
        simp [h3]
        omega
  | true =>
    have hsu : su ≤ 2 := h2 rfl
    cases c with
    | true =>
      by_cases h3 : 3 ≤ su + 1
      · simp [answerStep, h3]
      · simp only [answerStep]
        simp [h3]
        omega
    | false => simp [answerStep]

theorem reachable_invariant (s : RepairState) (h : ReachableRepair s) :
    (s.active = false → s.failures ≤ 2) ∧ (s.active = true → s.successes ≤ 2) := by
  induction h with
  | refl => simp [initRepair]
  | tail hab hr ih =>
    obtain ⟨fam, c, rfl⟩ := hr
    exact answerStep_invariant _ fam c ih.1 ih.2

/-- C5: from any reachable state with repair inactive, three consecutive
incorrect answers leave repair active, and the step that activates repair
locks that turn's family; from any reachable state with repair active,
three consecutive correct answers leave repair inactive with the failure
counter reset to 0, and any incorrect repair-mode answer resets the
success streak to 0. -/
theorem repairEntryExit (s : RepairState) (h : ReachableRepair s)
    (f1 f2 f3 g1 g2 g3 g : Family) :
    (s.active = false →
       (answerStep (answerStep (answerStep s f1 false) f2 false) f3 false).active = true) ∧
    (s.active = false → ∀ fam, (answerStep s fam false).active = true →
       (answerStep s fam false).locked = some fam) ∧
    (s.active = true →
       (answerStep (answerStep (answerStep s g1 true) g2 true) g3 true).active = false ∧
       (answerStep (answerStep (answerStep s g1 true) g2 true) g3 true).failures = 0) ∧
    (s.active = true → (answerStep s g false).successes = 0) := by
  have hinv := reachable_invariant s h
  rcases s with ⟨act, fl, su, lo⟩
  cases act with
  | false =>
    have hfl : fl ≤ 2 := hinv.1 rfl
    refine ⟨?_, ?_, ?_, ?_⟩
    · intro _
      interval_cases fl <;> simp [answerStep]
    · intro _ fam hact
      by_cases h3 : 3 ≤ fl + 1
      · simp [answerStep, h3]
      · simp [answerStep, h3] at hact
    · intro hcon
      simp at hcon
    · intro hcon
      simp at hcon
  | true =>
    have hsu : su ≤ 2 := hinv.2 rfl
    refine ⟨?_, ?_, ?_, ?_⟩
    · intro hcon
      simp at hcon
    · intro hcon
      simp at hcon
    · intro _
      interval_cases su <;> simp [answerStep]
    · intro _
      simp [answerStep]

/-- Witness for the C5 theorem at the initial state, which is reachable by
reflexivity. -/
theorem repairEntryExitWitness :
    (initRepair.active = false →
       (answerStep (answerStep (answerStep initRepair .causal false) .causal false)
         .causal false).active = true) ∧
    (initRepair.active = false → ∀ fam, (answerStep initRepair fam false).active = true →
       (answerStep initRepair fam false).locked = some fam) ∧
    (initRepair.active = true →
       (answerStep (answerStep (answerStep initRepair .spatial true) .spatial true)
         .spatial true).active = false ∧
       (answerStep (answerStep (answerStep initRepair .spatial true) .spatial true)
         .spatial true).failures = 0) ∧
    (initRepair.active = true → (answerStep initRepair .feature false).successes = 0) :=
  repairEntryExit initRepair Relation.ReflTransGen.refl .causal .causal .causal
    .spatial .spatial .spatial .feature

/- ### The block scheduler and the per-turn state effects (C6, C8) -/

/-- The per-turn mutable scheduling state touched by `nextTurn`:
`blockState.current.type`, `blockState.current.remaining`, the bag
`frameQueue.current` and the rolling history (App.tsx lines 1207, 1247,
1255). -/
structure TurnState where
  blockType : Family
  blockRemaining : Int
  bag : List Family
  history : List String
  deriving DecidableEq, Repr

/-- The random block-length variance `Math.floor(Math.random() * 6) + 3`
(App.tsx line 1306), with the draw modelled by a natural number modulo 6. -/
def blockVariance (k : Nat) : Nat := k % 6 + 3

/-- The dynamic block run length `nBackLevel * 3 + variance` (App.tsx lines
1305-1307). -/
def blockRunLength (n k : Nat) : Nat := n * 3 + blockVariance k

/-- The anti-repeat rotation applied to a freshly refilled bag (App.tsx
lines 1291-1294): if the new bag's first family equals the just-finished
block's family, that element is moved to the end. -/
def refillRotate (refill : List Family) (prevType : Family) : List Family :=
  match refill with
  | [] => []
  | f :: rest => if f = prevType then rest ++ [f] else f :: rest

/-- The state effect of one `nextTurn` call (App.tsx lines 1265-1390),
restricted to family selection, the scheduler and the history.  `refill` is
the shuffled permutation the source would produce on a bag refill, `k` the
run-length variance draw, `n` the N-back level and `newResult` the result
of the freshly generated item.  Returns the new state, the family used for
generation and the block-switch flag.  A Repair-locked turn (lines
1272-1273) and a practice-locked turn (lines 1274-1275) bypass the
scheduler entirely and, not being block switches, append to the history
(lines 1386-1390); a scheduler turn decrements the remaining counter
(line 1314) and on a switch resets the history to the new item alone. -/
def nextTurnState (isRepair : Bool) (repairType practiceLock : Option Family)
    (st : TurnState) (refill : List Family) (k n : Nat) (newResult : String) :
    TurnState × Family × Bool :=
  match isRepair, repairType with
  | true, some t =>
    (⟨st.blockType, st.blockRemaining, st.bag, st.history ++ [newResult]⟩, t, false)
  | _, _ =>
    match practiceLock with
    | some p =>
      (⟨st.blockType, st.blockRemaining, st.bag, st.history ++ [newResult]⟩, p, false)
    | none =>
      let drawn : Family × Int × List Family × Bool :=
        if st.blockRemaining ≤ 0 then
          match (if st.bag.isEmpty then refillRotate refill st.blockType else st.bag) with
          | [] => (st.blockType, st.blockRemaining, [], false)
          | f :: rest => (f, (blockRunLength n k : Int), rest, true)
        else (st.blockType, st.blockRemaining, st.bag, false)
      (⟨drawn.1, drawn.2.1 - 1, drawn.2.2.1,
        if drawn.2.2.2 && !isRepair then [newResult] else st.history ++ [newResult]⟩,
       drawn.1, drawn.2.2.2)

/-- C6 (amended): a Repair-Mode turn locks generation to the repair family,
is never a block switch, and leaves the block scheduler state and (through
`updateElo`'s early return) both ratings unchanged, but it appends the new
item to the rolling history instead of leaving the history untouched. -/
theorem repairTurnFrame (t : Family) (pl : Option Family) (st : TurnState)
    (refill : List Family) (k n : Nat) (res : String) (practice correct : Bool)
    (a r : Int) :
    (nextTurnState true (some t) pl st refill k n res).2.1 = t ∧
    (nextTurnState true (some t) pl st refill k n res).2.2 = false ∧
    (nextTurnState true (some t) pl st refill k n res).1.blockType = st.blockType ∧
    (nextTurnState true (some t) pl st refill k n res).1.blockRemaining = st.blockRemaining ∧
    (nextTurnState true (some t) pl st refill k n res).1.bag = st.bag ∧
    (nextTurnState true (some t) pl st refill k n res).1.history = st.history ++ [res] ∧
    updateElo true practice correct a r = (a, r) := by
  refine ⟨rfl, rfl, rfl, rfl, rfl, rfl, ?_⟩
  simp [updateElo]

/-- C6 counterexample: a Repair-Mode turn appends its item to the rolling
history rather than leaving it unchanged, and after the repair block the
remediation item R is still in the history produced by the next normal
non-switch turn (no path of `handleAnswer` or `nextTurn` removes it short
of a block switch). -/
theorem repairHistoryCounterexample :
    (nextTurnState true (some .causal) none ⟨.feature, 5, [], ["A"]⟩ [] 0 1 "R").1.history
      = ["A", "R"] ∧
    (["A", "R"] : List String) ≠ ["A"] ∧
    "R" ∈ (nextTurnState false none none ⟨.feature, 5, [], ["A", "R"]⟩ [] 0 1 "N").1.history := by
  decide

/- ### The switch-event view of the bag scheduler (C8) -/

/-- One block switch (App.tsx lines 1278-1311) seen on the subsequence of
turns whose remaining counter has run out: refill and rotate when the bag
is empty (consuming the next injected permutation), then pop the head as
the new active family.  Turns between switches leave the bag and the
active family unchanged, so iterating this step enumerates the families of
consecutive block switches. -/
def switchStep : Family × List Family × List (List Family) →
    Family × List Family × List (List Family)
  | (t, [], []) => (t, [], [])
  | (t, [], refill :: rs) =>
    match refillRotate refill t with
    | [] => (t, [], rs)
    | f :: rest => (f, rest, rs)
  | (_, f :: rest, rs) => (f, rest, rs)

/-- The families of `m` consecutive block switches. -/
def switchSeq : Family × List Family × List (List Family) → Nat → List Family
  | _, 0 => []
  | s, m + 1 => (switchStep s).1 :: switchSeq (switchStep s) m

theorem switchSeq_succ (s : Family × List Family × List (List Family)) (m : Nat) :
    switchSeq s (m + 1) = (switchStep s).1 :: switchSeq (switchStep s) m := rfl

theorem switchSeq_pops (b : List Family) : ∀ (t : Family) (rs : List (List Family)),
    switchSeq (t, b, rs) b.length = b := by
  induction b with
  | nil =>
    intro t rs
    rfl
  | cons f rest ih =>
    intro t rs
    have hstep : switchStep (t, f :: rest, rs) = (f, rest, rs) := rfl
    show (switchStep (t, f :: rest, rs)).1 ::
      switchSeq (switchStep (t, f :: rest, rs)) rest.length = f :: rest
    rw [hstep]
    exact congrArg (f :: ·) (ih f rs)

theorem refillRotate_perm (refill : List Family) (t : Family) :
    (refillRotate refill t).Perm refill := by
  cases refill with
  | nil => rfl
  | cons f rest =>
    simp only [refillRotate]
    split
    · exact List.perm_append_singleton f rest
    · rfl

theorem refillRotate_length (refill : List Family) (t : Family) :
    (refillRotate refill t).length = refill.length :=
  (refillRotate_perm refill t).length_eq

theorem refillRotate_head_ne (refill : List Family) (t : Family)
    (hperm : refill.Perm allTypes) :
    ∀ f rest, refillRotate refill t = f :: rest → f ≠ t := by
  have hnd : refill.Nodup := hperm.nodup_iff.mpr (by decide)
  cases refill with
  | nil =>
    intro f rest heq
    simp [refillRotate] at heq
  | cons a as =>
    intro f rest heq
    simp only [refillRotate] at heq
    by_cases hat : a = t
    · rw [if_pos hat] at heq
      cases as with
      | nil =>
        have hlen := hperm.length_eq
        simp [allTypes] at hlen
      | cons b bs =>
        rw [List.cons_append] at heq
        obtain ⟨hbf, -⟩ := List.cons.inj heq
        intro hft
        apply (List.nodup_cons.mp hnd).1
        have hab : a = b := by rw [hat, ← hft, ← hbf]
        rw [hab]
        exact List.mem_cons_self b bs
    · rw [if_neg hat] at heq
      obtain ⟨haf, -⟩ := List.cons.inj heq
      rw [← haf]
      exact hat

theorem switchSeq_refill (t : Family) (perm : List Family) (h9 : perm.length = 9) :
    switchSeq (t, [], [perm]) 9 = refillRotate perm t := by
  have hlen : (refillRotate perm t).length = 9 := by
    rw [refillRotate_length]
    exact h9
  obtain ⟨f, rest, heq⟩ : ∃ f rest, refillRotate perm t = f :: rest := by
    cases hrr : refillRotate perm t with
    | nil =>
      rw [hrr] at hlen
      simp at hlen
    | cons f rest => exact ⟨f, rest, rfl⟩
  have hstep : switchStep (t, [], [perm]) = (f, rest, []) := by
    show (match refillRotate perm t with
      | [] => (t, ([] : List Family), ([] : List (List Family)))
      | f :: rest => (f, rest, [])) = (f, rest, [])
    rw [heq]
  have hrl : rest.length = 8 := by
    rw [heq] at hlen
    simpa using hlen
  rw [show (9 : Nat) = 8 + 1 from rfl, switchSeq_succ, hstep, ← hrl,
    switchSeq_pops rest f [], heq]

/-- C8 (amended): with the bag empty and an injected refill permutation of
all nine families, the next nine consecutive block switches enumerate a
permutation of all nine families (coverage holds for refill-aligned windows
of nine switches); the family popped right after a refill never equals the
family active before it; the block-length variance lies in [3, 8]; and on
such a switch `nextTurn` pops the rotated refill's head, stores run length
`n*3 + variance` (observed as remaining = runLength - 1 after the post-pop
decrement) and resets the history to the new item.  The original claim's
quantification over arbitrary windows of nine switches fails; see the
counterexample. -/
theorem bagSchedulerAligned (perm : List Family) (hp : perm.Perm allTypes) (t : Family)
    (n k : Nat) :
    (switchSeq (t, [], [perm]) 9).Perm allTypes ∧
    (∀ f rest, refillRotate perm t = f :: rest → f ≠ t) ∧
    (3 ≤ blockVariance k ∧ blockVariance k ≤ 8) ∧
    (∀ (br : Int) (hi : List String) (res : String), br ≤ 0 →
       (nextTurnState false none none ⟨t, br, [], hi⟩ perm k n res).2.2 = true ∧
       (nextTurnState false none none ⟨t, br, [], hi⟩ perm k n res).2.1 ::
         (nextTurnState false none none ⟨t, br, [], hi⟩ perm k n res).1.bag =
           refillRotate perm t ∧
       (nextTurnState false none none ⟨t, br, [], hi⟩ perm k n res).1.blockRemaining =
         (blockRunLength n k : Int) - 1 ∧
       (nextTurnState false none none ⟨t, br, [], hi⟩ perm k n res).1.history = [res]) := by
  have h9 : perm.length = 9 := by
    rw [hp.length_eq]
    decide
  refine ⟨?_, refillRotate_head_ne perm t hp, ?_, ?_⟩
  · rw [switchSeq_refill t perm h9]
    exact (refillRotate_perm perm t).trans hp
  · constructor
    · unfold blockVariance
      omega
    · unfold blockVariance
      have : k % 6 < 6 := Nat.mod_lt k (by norm_num)
      omega
  · intro br hi res h0
    obtain ⟨f, rest, heq⟩ : ∃ f rest, refillRotate perm t = f :: rest := by
      have hlen : (refillRotate perm t).length = 9 := by
        rw [refillRotate_length]
        exact h9
      cases hrr : refillRotate perm t with
      | nil =>
        rw [hrr] at hlen
        simp at hlen
      | cons f rest => exact ⟨f, rest, rfl⟩
    have hout : nextTurnState false none none ⟨t, br, [], hi⟩ perm k n res =
        (⟨f, (blockRunLength n k : Int) - 1, rest, [res]⟩, f, true) := by
      simp only [nextTurnState, List.isEmpty_nil, if_true, if_pos h0, heq,
        Bool.not_false, Bool.and_self]
    rw [hout, heq]
    exact ⟨rfl, rfl, rfl, rfl⟩

/-- Witness for the C8 theorem: the identity permutation of the nine
families after a Feature block. -/
theorem bagSchedulerAlignedWitness :
    (switchSeq (Family.feature, [], [allTypes]) 9).Perm allTypes ∧
    (∀ f rest, refillRotate allTypes .feature = f :: rest → f ≠ .feature) ∧
    (3 ≤ blockVariance 0 ∧ blockVariance 0 ≤ 8) ∧
    (∀ (br : Int) (hi : List String) (res : String), br ≤ 0 →
       (nextTurnState false none none ⟨.feature, br, [], hi⟩ allTypes 0 1 res).2.2 = true ∧
       (nextTurnState false none none ⟨.feature, br, [], hi⟩ allTypes 0 1 res).2.1 ::
         (nextTurnState false none none ⟨.feature, br, [], hi⟩ allTypes 0 1 res).1.bag =
           refillRotate allTypes .feature ∧
       (nextTurnState false none none ⟨.feature, br, [], hi⟩ allTypes 0 1 res).1.blockRemaining =
         (blockRunLength 1 0 : Int) - 1 ∧
       (nextTurnState false none none ⟨.feature, br, [], hi⟩ allTypes 0 1 res).1.history =
         [res]) :=
  bagSchedulerAligned allTypes (List.Perm.refl allTypes) .feature 1 0

/-- The first refill permutation of the C8 counterexample run. -/
def bagPermA : List Family := allTypes

/-- The second refill permutation of the C8 counterexample run. -/
def bagPermB : List Family :=
  [.opposition, .feature, .comparison, .hierarchy, .causal, .spatial,
   .deictic, .conditional, .analogy]

/-- C8 counterexample: nine consecutive block switches that straddle a bag
refill need not cover the nine families.  Starting from a Feature block
with an empty bag and refills `bagPermA` then `bagPermB` (both genuine
permutations, no family forced), the window of switches 2-10 contains
Opposition twice and Comparison not at all. -/
theorem bagWindowCounterexample :
    bagPermA.Perm allTypes ∧ bagPermB.Perm allTypes ∧
    ((switchSeq (Family.feature, [], [bagPermA, bagPermB]) 10).drop 1).length = 9 ∧
    ((switchSeq (Family.feature, [], [bagPermA, bagPermB]) 10).drop 1).count
      Family.opposition = 2 ∧
    ((switchSeq (Family.feature, [], [bagPermA, bagPermB]) 10).drop 1).count
      Family.comparison = 0 := by
  decide

/- ### Startup initialization from persisted state (C9) -/

/-- The persisted configuration record (App.tsx lines 60-65), restricted to
the fields the startup defaults set. -/
structure GameConfig where
  nBackLevel : Nat
  baseTimer : Int
  isPracticeMode : Bool
  deriving DecidableEq, Repr

/-- The default configuration `{nBackLevel: 1, baseTimer: 10,
isPracticeMode: false}` (App.tsx line 1213). -/
def defaultConfig : GameConfig := ⟨1, 10, false⟩

/-- The decimal value of a digit run. -/
def digitsVal (cs : List Char) : Nat :=
  cs.foldl (fun a c => a * 10 + (c.toNat - 48)) 0

/-- Modelled from the spec: the JavaScript `parseInt(s, 10)` builtin used at
App.tsx line 1219 is a platform builtin, not code of this repository.  It
skips leading whitespace, reads an optional sign and then the leading run
of decimal digits, and yields NaN (modelled as `none`) when that run is
empty — the "unparsable stored rating" of the spec's error model. -/
def parseInt10 (s : String) : Option Int :=
  let cs := s.toList.dropWhile (fun c => c == ' ' || c == '\t' || c == '\n' || c == '\r')
  let signAndRest : Int × List Char :=
    match cs with
    | '-' :: r => (-1, r)
    | '+' :: r => (1, r)
    | r => (1, r)
  let ds := signAndRest.2.takeWhile Char.isDigit
  if ds.isEmpty then none
  else some (signAndRest.1 * (digitsVal ds : Int))

/-- The config initializer (App.tsx lines 1208-1214): a present (non-null,
nonempty — the JS truthiness test) stored string is handed to `JSON.parse`
and the outcome returned unguarded, so a raised parse failure propagates;
only an absent value falls back to the default.  `JSON.parse` is a platform
builtin, not code of this repository, so it is abstracted as the injected
`jsonParse`, which either returns a configuration or fails. -/
def initConfig (jsonParse : String → Except Unit GameConfig) (saved : Option String) :
    Except Unit GameConfig :=
  match saved with
  | some s => if s = "" then Except.ok defaultConfig else jsonParse s
  | none => Except.ok defaultConfig

/-- The rating initializer (App.tsx lines 1216-1222):
`saved ? parseInt(saved, 10) : 1000`, with NaN modelled as `none`. -/
def initRating (saved : Option String) : Option Int :=
  match saved with
  | some s => if s = "" then some 1000 else parseInt10 s
  | none => some 1000

/-- C9 (amended): an absent stored rating or configuration yields the
defaults (1000 and {nBackLevel 1, baseTimer 10, practice off}), and a
well-formed stored configuration is used as parsed; but parse failures are
not silenced: an unparsable stored rating initializes to NaN rather than
1000, and a failing `JSON.parse` of a stored configuration propagates out
of the initializer instead of falling back to the default. -/
theorem startupFallbacks (jsonParse : String → Except Unit GameConfig) (s : String)
    (hs : s ≠ "") (hfail : jsonParse s = Except.error ()) :
    initConfig jsonParse none = Except.ok defaultConfig ∧
    initRating none = some 1000 ∧
    (∀ s2 cfg, s2 ≠ "" → jsonParse s2 = Except.ok cfg →
       initConfig jsonParse (some s2) = Except.ok cfg) ∧
    initConfig jsonParse (some s) = Except.error () ∧
    initRating (some "garbage") = none ∧
    initRating (some "1234") = some 1234 := by
  refine ⟨rfl, rfl, ?_, ?_, ?_, ?_⟩
  · intro s2 cfg h2 hok
    simp [initConfig, h2, hok]
  · simp [initConfig, hs, hfail]
  · decide
  · decide

/-- Witness for the C9 theorem: a parse function that fails on the stored
text "x" (the spec asserts unparsable stored configurations exist). -/
theorem startupFallbacksWitness :
    initConfig (fun _ => Except.error ()) none = Except.ok defaultConfig ∧
    initRating none = some 1000 ∧
    (∀ s2 cfg, s2 ≠ "" → (fun _ => (Except.error () : Except Unit GameConfig)) s2 = Except.ok cfg →
       initConfig (fun _ => Except.error ()) (some s2) = Except.ok cfg) ∧
    initConfig (fun _ => Except.error ()) (some "x") = Except.error () ∧
    initRating (some "garbage") = none ∧
    initRating (some "1234") = some 1234 :=
  startupFallbacks (fun _ => Except.error ()) "x" (by decide) rfl

/-- C9 counterexample: an unparsable stored rating does not fall back to
the default 1000 — `parseInt` yields NaN (`none`). -/
theorem unparsableRatingCounterexample :
    initRating (some "garbage") = none ∧ (none : Option Int) ≠ some 1000 := by
  decide

end Omega
